import Mathlib

/-!
Shallow embedding of the dormant-customer analysis engine
(backend/src/data_processor.py and backend/src/models.py).

Modelling conventions:
* Calendar dates are `Date` triples (year, month, day); differences and
  comparisons go through `Date.toDays` (proleptic Gregorian day number,
  matching Python `datetime.date` arithmetic).
* Loosely-typed raw cells are `Option` values: `none` models a pandas
  missing value (NaN/NaT), i.e. the outcome of a failed coercion
  (pd.to_datetime / pd.to_numeric with errors=coerce) or an empty cell.
* Money and scores are exact rationals; Python float/Decimal arithmetic
  is idealized as exact rational arithmetic.
* Python dicts are insertion-ordered association lists, matching
  Python 3.7+ semantics; pandas groupby keys are sorted ascending,
  matching groupby(sort=True).
-/

/-- A calendar date, as in Python datetime.date. -/
structure Date where
  year : Int
  month : Int
  day : Int
deriving DecidableEq, Repr

/-- Day number of a civil date (days since 1970-01-01), the standard
days-from-civil algorithm; matches Python date subtraction for valid dates. -/
def Date.toDays (d : Date) : Int :=
  let y : Int := if d.month ≤ 2 then d.year - 1 else d.year
  let era : Int := (if 0 ≤ y then y else y - 399) / 400
  let yoe : Int := y - era * 400
  let mp : Int := (d.month + 9) % 12
  let doy : Int := (153 * mp + 2) / 5 + d.day - 1
  let doe : Int := yoe * 365 + yoe / 4 - yoe / 100 + doy
  era * 146097 + doe - 719468

/-- Calendar-month key of a date, as used by dt.to_period with monthly
frequency: the (year, month) pair. -/
def Date.monthKey (d : Date) : Int × Int := (d.year, d.month)

/-- models.AnalyticsConfig (models.py lines 91-98). -/
structure AnalyticsConfig where
  today_date : Date
  dormant_days_threshold : Int
  analysis_period_months : Int
  high_value_threshold : ℚ
  quick_win_threshold : ℚ
  min_orders_for_pattern : Int
deriving DecidableEq, Repr

/-- One raw sales row after pandas coercion of the date and price columns:
a cell is none when the original value was missing or failed coercion. -/
structure Row where
  invoice_date : Option Date
  posted_date : Option Date
  customer : Option String
  salesperson : Option String
  item : Option String
  qty : ℚ
  net_price : Option ℚ
deriving DecidableEq, Repr

/-- A sales row after ownership reconciliation: Salesperson resolved,
Salesperson_Original retained (data_processor.py lines 262-264). -/
structure MappedRow where
  invoice_date : Option Date
  posted_date : Option Date
  customer : Option String
  salesperson : Option String
  salesperson_original : Option String
  item : Option String
  qty : ℚ
  net_price : Option ℚ
deriving DecidableEq, Repr

/-- models.DataQualityReport (models.py lines 79-88). -/
structure DataQualityReport where
  total_records : Nat
  valid_records : Nat
  duplicate_records : Nat
  missing_customer_mappings : Nat
  invalid_dates : Nat
  invalid_prices : Nat
  data_completeness_score : ℚ
  recommendations : List String
deriving DecidableEq, Repr

/-- models.DormantCustomer (models.py lines 42-54). -/
structure DormantCustomer where
  customer : String
  salesperson : Option String
  last_order_date : Date
  days_since_order : Int
  total_6_month_value : ℚ
  order_count_6_months : Nat
  average_order_value : ℚ
  churn_risk_score : ℚ
  customer_lifetime_value : ℚ
  preferred_products : List String
  seasonal_pattern : Option String
deriving DecidableEq, Repr

/-- models.SalespersonSummary (models.py lines 57-64). -/
structure SalespersonSummary where
  salesperson : Option String
  dormant_customer_count : Nat
  total_value_at_risk : ℚ
  high_value_dormant_count : Nat
  quick_win_count : Nat
  average_churn_risk : ℚ
deriving DecidableEq, Repr

/-- The summary dict built in process_files (data_processor.py lines 201-206). -/
structure RunSummary where
  total_dormant_customers : Nat
  total_value_at_risk : ℚ
  average_churn_risk : ℚ
  data_quality_score : ℚ
deriving DecidableEq, Repr

/-- models.ProcessingResult (models.py lines 67-76). -/
structure ProcessingResult where
  summary : RunSummary
  salesperson_summaries : List SalespersonSummary
  dormant_customers : List DormantCustomer
  insights : List (String × String)
  data_quality_report : DataQualityReport
  processing_timestamp : Int
  total_customers_analyzed : Nat
  data_accuracy_score : ℚ
deriving DecidableEq, Repr

/-- Count of rows that are exact duplicates of an earlier row
(pandas DataFrame.duplicated().sum(): occurrences after the first). -/
def dupCountAux (seen : List Row) : List Row → Nat
  | [] => 0
  | r :: rest =>
      (if r ∈ seen then 1 else 0) + dupCountAux (r :: seen) rest

/-- DataValidator.validate_sales_data (data_processor.py lines 22-62).
Input rows carry the outcome of the date/price coercions; this function
performs the fillna(0) on Net price, drops rows missing Posted date or
Customer, and assembles the quality report.  Note the report recounts
null prices after the fillna, exactly as the code does on line 57. -/
def validate_sales_data (df : List Row) : List Row × DataQualityReport :=
  let initial_count := df.length
  let invalid_invoice_issues := df.countP (fun r => r.invoice_date.isNone)
  let invalid_date_issues := df.countP (fun r => r.posted_date.isNone)
  let invalid_price_issues := df.countP (fun r => r.net_price.isNone)
  let issues :=
    (if invalid_invoice_issues > 0 then
      [toString invalid_invoice_issues ++ " invalid dates in Invoice date"] else []) ++
    (if invalid_date_issues > 0 then
      [toString invalid_date_issues ++ " invalid dates in Posted date"] else []) ++
    (if invalid_price_issues > 0 then
      [toString invalid_price_issues ++ " invalid prices"] else [])
  let df_filled := df.map (fun r => { r with net_price := some (r.net_price.getD 0) })
  let df_clean := df_filled.filter (fun r => r.posted_date.isSome && r.customer.isSome)
  let report : DataQualityReport :=
    { total_records := initial_count
      valid_records := df_clean.length
      duplicate_records := dupCountAux [] df_clean
      missing_customer_mappings := 0
      invalid_dates := df_filled.countP (fun r => r.posted_date.isNone)
      invalid_prices := df_filled.countP (fun r => r.net_price.isNone)
      data_completeness_score :=
        if initial_count > 0 then (df_clean.length : ℚ) / initial_count else 0
      recommendations := issues }
  (df_clean, report)

/-- Lookup in the customer mapping dict built by dict(zip(customers, reps))
(data_processor.py line 259): a later planning row overwrites an earlier one
with the same customer key, hence the search from the end. -/
def mapLookup (planning : List (Option String × Option String)) (c : String) :
    Option (Option String) :=
  (planning.reverse.find? (fun p => p.1 == some c)).map (fun p => p.2)

/-- Resolution of one sales row against the mapping
(sales Customer mapped through the dict, then fillna with the original
Salesperson, data_processor.py lines 262-264). -/
def resolveRow (planning : List (Option String × Option String)) (r : Row) :
    MappedRow :=
  { invoice_date := r.invoice_date
    posted_date := r.posted_date
    customer := r.customer
    salesperson :=
      match r.customer with
      | none => r.salesperson
      | some c =>
        match mapLookup planning c with
        | some (some rep) => some rep
        | some none => r.salesperson
        | none => r.salesperson
    salesperson_original := r.salesperson
    item := r.item
    qty := r.qty
    net_price := r.net_price }

/-- DormantCustomerProcessor._apply_customer_mappings
(data_processor.py lines 243-266).  The planning table is given as the
zip of its fuzzily-detected customer and rep columns; when the column
detection fails the code applies the empty mapping, represented here by
the empty list. -/
def applyMappings (sales : List Row)
    (planning : List (Option String × Option String)) : List MappedRow :=
  sales.map (resolveRow planning)

/-- Lexicographic comparison of char lists by code point, the order Python
uses for str and pandas for string group keys. -/
def charListLt : List Char → List Char → Bool
  | [], [] => false
  | [], _ :: _ => true
  | _ :: _, [] => false
  | a :: as, b :: bs =>
    if a.toNat < b.toNat then true
    else if b.toNat < a.toNat then false
    else charListLt as bs

/-- String comparison by code points (Python str ordering). -/
def strLt (a b : String) : Bool := charListLt a.data b.data

/-- Insert a key into a sorted list of distinct keys (no-op when present).
Folding this over a column reproduces the sorted distinct group keys that
pandas groupby with sort=True yields. -/
def insertKey {α : Type} [DecidableEq α] (lt : α → α → Bool) (a : α) :
    List α → List α
  | [] => [a]
  | b :: bs =>
    if a = b then b :: bs
    else if lt a b then a :: b :: bs
    else b :: insertKey lt a bs

/-- The sorted distinct non-null keys of a column (pandas groupby keys;
null keys are dropped, as groupby does). -/
def collectKeys {α : Type} [DecidableEq α] (lt : α → α → Bool)
    (f : MappedRow → Option α) (rows : List MappedRow) : List α :=
  rows.foldl (fun acc r => match f r with | some k => insertKey lt k acc | none => acc) []

/-- The non-null posted dates of a set of rows. -/
def postedDates (rows : List MappedRow) : List Date :=
  rows.filterMap (fun r => r.posted_date)

/-- Chronological maximum of a list of dates (pandas Series.max). -/
def maxDate? : List Date → Option Date
  | [] => none
  | d :: ds =>
    match maxDate? ds with
    | none => some d
    | some m => some (if m.toDays < d.toDays then d else m)

/-- Sum of the non-null prices of a set of rows (pandas Series.sum,
which skips nulls). -/
def priceSum (rows : List MappedRow) : ℚ :=
  (rows.filterMap (fun r => r.net_price)).sum

/-- Mean of the non-null prices (pandas Series.mean: sum over count of
non-null entries; the division by zero for an all-null column is
unreachable after the fillna in validation). -/
def priceMean (rows : List MappedRow) : ℚ :=
  let l := rows.filterMap (fun r => r.net_price)
  l.sum / l.length

/-- Mean of a list of rationals (np.mean). -/
def qMean (l : List ℚ) : ℚ := l.sum / l.length

/-- Least-squares slope of the degree-1 fit of ys against x = 0,...,n-1,
the exact-arithmetic value of np.polyfit(x, y, 1)[0]. -/
def lsSlope (ys : List ℚ) : ℚ :=
  let n : ℚ := ys.length
  let xs : List ℚ := (List.range ys.length).map (fun i => (i : ℚ))
  let sx := xs.sum
  let sy := ys.sum
  let sxy := ((xs.zip ys).map (fun p => p.1 * p.2)).sum
  let sxx := (xs.map (fun x => x * x)).sum
  (n * sxy - sx * sy) / (n * sxx - sx * sx)

/-- Comparison of (year, month) period keys in chronological order. -/
def monthLt (a b : Int × Int) : Bool :=
  a.1 < b.1 || (a.1 = b.1 && a.2 < b.2)

/-- The sorted distinct (year, month) periods of the posted dates. -/
def monthKeys (rows : List MappedRow) : List (Int × Int) :=
  collectKeys monthLt (fun r => r.posted_date.map Date.monthKey) rows

/-- Monthly-aggregated spend: for each (year, month) period in ascending
order, the sum of Net price over that period
(groupby(dt.to_period)[Net price].sum().sort_index()). -/
def monthlySpending (rows : List MappedRow) : List ℚ :=
  (monthKeys rows).map (fun k =>
    priceSum (rows.filter (fun r => (r.posted_date.map Date.monthKey) == some k)))

/-- AdvancedAnalytics._calculate_value_trend (data_processor.py lines 97-117).
Returns 0.5 for fewer than 3 rows or fewer than 2 distinct months; otherwise
the clamped normalized least-squares slope.  The guard len(x) >= 2 of
line 113 is always true on that branch and is dropped. -/
def calculate_value_trend (rows : List MappedRow) : ℚ :=
  if rows.length < 3 then 1/2
  else
    let monthly := monthlySpending rows
    if monthly.length < 2 then 1/2
    else max (min (lsSlope monthly / qMean monthly + 0.5) 1) 0

/-- AdvancedAnalytics.calculate_churn_risk_score
(data_processor.py lines 69-94). -/
def calculate_churn_risk_score (rows : List MappedRow) (cfg : AnalyticsConfig) : ℚ :=
  if rows = [] then 0.5
  else
    let last := (maxDate? (postedDates rows)).getD ⟨1970, 1, 1⟩
    let days_since_last_order : Int := cfg.today_date.toDays - last.toDays
    let order_frequency : ℚ := (rows.length : ℚ) / ((cfg.analysis_period_months : ℚ) * 30)
    let avg_order_value := priceMean rows
    let value_trend := calculate_value_trend rows
    let recency_score := min ((days_since_last_order : ℚ) / 90) 1
    let frequency_score := max (1 - order_frequency) 0
    let value_score := max (1 - avg_order_value / 1000) 0
    let trend_score := max (1 - value_trend) 0
    min (max (recency_score * 0.4 + frequency_score * 0.3 +
              value_score * 0.2 + trend_score * 0.1) 0) 1

/-- Round to the nearest integer, ties to even (Python round). -/
def roundHalfEven (q : ℚ) : Int :=
  let f : Int := ⌊q⌋
  let r : ℚ := q - f
  if r < 1/2 then f
  else if 1/2 < r then f + 1
  else if f % 2 = 0 then f else f + 1

/-- AdvancedAnalytics.calculate_customer_lifetime_value
(data_processor.py lines 120-134): average order value times
max(order_count * 2, 6), rounded to 2 decimal places. -/
def calculate_customer_lifetime_value (rows : List MappedRow) : ℚ :=
  if rows = [] then 0
  else
    let total_spent := priceSum rows
    let order_count := rows.length
    let avg_order_value : ℚ := if 0 < order_count then total_spent / order_count else 0
    let estimated_annual_orders : ℚ := max ((order_count : ℚ) * 2) 6
    let clv := avg_order_value * estimated_annual_orders
    (roundHalfEven (clv * 100) : ℚ) / 100

/-- First pair attaining the maximal count, scanning left to right
(pandas Series.idxmax keeps the first occurrence of the maximum). -/
def firstMaxNat : List (Int × Nat) → Option (Int × Nat)
  | [] => none
  | p :: ps =>
    match firstMaxNat ps with
    | none => some p
    | some q => some (if p.2 < q.2 then q else p)

/-- AdvancedAnalytics.identify_seasonal_patterns
(data_processor.py lines 137-162): none below 6 rows, otherwise the season
of the peak calendar month of the posted dates. -/
def identify_seasonal_patterns (rows : List MappedRow) : Option String :=
  if rows.length < 6 then none
  else
    let months := collectKeys (fun a b => decide (a < b))
      (fun r => r.posted_date.map (fun d => d.month)) rows
    if months = [] then none
    else
      let counts := months.map (fun m =>
        (m, rows.countP (fun r => (r.posted_date.map (fun d => d.month)) == some m)))
      let peak : Int := ((firstMaxNat counts).map (fun p => p.1)).getD 0
      if peak = 12 ∨ peak = 1 ∨ peak = 2 then some "Winter buyer"
      else if peak = 3 ∨ peak = 4 ∨ peak = 5 then some "Spring buyer"
      else if peak = 6 ∨ peak = 7 ∨ peak = 8 then some "Summer buyer"
      else if peak = 9 ∨ peak = 10 ∨ peak = 11 then some "Fall buyer"
      else some "No clear pattern"

/-- Top 3 items by summed quantity, descending, stable over the
ascending item keys (groupby(Item)[Qty].sum().nlargest(3)). -/
def preferredProducts (rows : List MappedRow) : List String :=
  let items := collectKeys strLt (fun r => r.item) rows
  let sums := items.map (fun i =>
    (i, ((rows.filter (fun r => r.item == some i)).map (fun r => r.qty)).sum))
  ((List.insertionSort (fun a b : String × ℚ => b.2 < a.2) sums).take 3).map
    (fun p => p.1)

/-- Start of the analysis window (today minus analysis_period_months times
30 days, data_processor.py line 271), as a day number. -/
def analysisStart (cfg : AnalyticsConfig) : Int :=
  cfg.today_date.toDays - cfg.analysis_period_months * 30

/-- Dormancy cutoff (today minus dormant_days_threshold days,
data_processor.py line 270), as a day number. -/
def cutoffDays (cfg : AnalyticsConfig) : Int :=
  cfg.today_date.toDays - cfg.dormant_days_threshold

/-- Rows whose posted date falls inside the analysis window
(data_processor.py line 274; a null date compares false). -/
def periodSales (cfg : AnalyticsConfig) (sales : List MappedRow) : List MappedRow :=
  sales.filter (fun r =>
    match r.posted_date with
    | some d => decide (analysisStart cfg ≤ d.toDays)
    | none => false)

/-- One customer's rows (data_processor.py line 289). -/
def customerRows (rows : List MappedRow) (c : String) : List MappedRow :=
  rows.filter (fun r => r.customer == some c)

/-- The dormant mask of data_processor.py lines 281-284 applied to one
customer: the last order inside the window is at or after the window start
and strictly before the cutoff. -/
def isDormantLast (cfg : AnalyticsConfig) (rows : List MappedRow) : Bool :=
  match maxDate? (postedDates rows) with
  | some d => decide (analysisStart cfg ≤ d.toDays) && decide (d.toDays < cutoffDays cfg)
  | none => false

/-- Construction of one DormantCustomer record
(data_processor.py lines 294-314). -/
def mkDormantCustomer (cfg : AnalyticsConfig) (c : String) (rows : List MappedRow) :
    DormantCustomer :=
  let last := (maxDate? (postedDates rows)).getD ⟨1970, 1, 1⟩
  { customer := c
    salesperson := match rows with | [] => none | r :: _ => r.salesperson
    last_order_date := last
    days_since_order := cfg.today_date.toDays - last.toDays
    total_6_month_value := priceSum rows
    order_count_6_months := rows.length
    average_order_value := priceMean rows
    churn_risk_score := calculate_churn_risk_score rows cfg
    customer_lifetime_value := calculate_customer_lifetime_value rows
    preferred_products := preferredProducts rows
    seasonal_pattern := identify_seasonal_patterns rows }

/-- DormantCustomerProcessor._identify_dormant_customers
(data_processor.py lines 268-318): filter to the window, group by customer,
keep customers whose last order satisfies the dormant mask, and build one
record per dormant customer (the empty-rows continue of line 291 becomes
the none branch of the filterMap). -/
def identify_dormant_customers (cfg : AnalyticsConfig) (sales : List MappedRow) :
    List DormantCustomer :=
  let period := periodSales cfg sales
  let names := collectKeys strLt (fun r => r.customer) period
  let dormantNames := names.filter (fun c => isDormantLast cfg (customerRows period c))
  dormantNames.filterMap (fun c =>
    let rows := customerRows period c
    if rows = [] then none else some (mkDormantCustomer cfg c rows))

/-- The per-representative accumulator dict entry of
data_processor.py lines 326-333. -/
structure RepData where
  customers : List DormantCustomer
  total_value : ℚ
  high_value_count : Nat
  quick_win_count : Nat
  risk_scores : List ℚ
deriving DecidableEq, Repr

/-- The fresh accumulator entry (data_processor.py lines 327-333). -/
def emptyRepData : RepData := ⟨[], 0, 0, 0, []⟩

/-- Folding one customer into a representative entry
(data_processor.py lines 335-342, with the if / elif classification). -/
def addCustomer (cfg : AnalyticsConfig) (c : DormantCustomer) (d : RepData) : RepData :=
  { customers := d.customers ++ [c]
    total_value := d.total_value + c.total_6_month_value
    high_value_count := d.high_value_count +
      (if cfg.high_value_threshold ≤ c.total_6_month_value then 1 else 0)
    quick_win_count := d.quick_win_count +
      (if cfg.high_value_threshold ≤ c.total_6_month_value then 0
       else if c.total_6_month_value ≤ cfg.quick_win_threshold then 1 else 0)
    risk_scores := d.risk_scores ++ [c.churn_risk_score] }

/-- Insertion-ordered dict update: find the entry for the customer's rep
or append a new one at the end (Python dict semantics of rep_data). -/
def upsert (cfg : AnalyticsConfig) :
    List (Option String × RepData) → DormantCustomer → List (Option String × RepData)
  | [], c => [(c.salesperson, addCustomer cfg c emptyRepData)]
  | (k, d) :: rest, c =>
    if k = c.salesperson then (k, addCustomer cfg c d) :: rest
    else (k, d) :: upsert cfg rest c

/-- The rep_data dict after the loop of data_processor.py lines 324-342. -/
def repData (cfg : AnalyticsConfig) (dcs : List DormantCustomer) :
    List (Option String × RepData) :=
  dcs.foldl (upsert cfg) []

/-- One SalespersonSummary from a dict entry
(data_processor.py lines 346-353). -/
def mkSummary (p : Option String × RepData) : SalespersonSummary :=
  { salesperson := p.1
    dormant_customer_count := p.2.customers.length
    total_value_at_risk := p.2.total_value
    high_value_dormant_count := p.2.high_value_count
    quick_win_count := p.2.quick_win_count
    average_churn_risk := if p.2.risk_scores = [] then 0 else qMean p.2.risk_scores }

/-- DormantCustomerProcessor._generate_salesperson_summaries
(data_processor.py lines 320-356): group by rep, summarize, and stable-sort
by total value at risk descending (Python sorted with reverse=True). -/
def generate_salesperson_summaries (cfg : AnalyticsConfig)
    (dcs : List DormantCustomer) : List SalespersonSummary :=
  List.insertionSort
    (fun a b : SalespersonSummary => b.total_value_at_risk < a.total_value_at_risk)
    ((repData cfg dcs).map mkSummary)

/-- Python max over a nonempty list given as head and tail: the first
element attaining the maximal total value wins ties. -/
def maxByValueFirst (b : DormantCustomer) (l : List DormantCustomer) : DormantCustomer :=
  l.foldl (fun best c =>
    if best.total_6_month_value < c.total_6_month_value then c else best) b

/-- Python max over summaries by quick-win count, first maximal wins. -/
def firstMaxQuickWin : List SalespersonSummary → Option SalespersonSummary
  | [] => none
  | s :: rest =>
    match firstMaxQuickWin rest with
    | none => some s
    | some q => some (if s.quick_win_count < q.quick_win_count then q else s)

/-- Insertion-ordered counter update for seasonal pattern labels
(patterns dict of data_processor.py lines 395-398). -/
def bumpKey : List (String × Nat) → String → List (String × Nat)
  | [], k => [(k, 1)]
  | (k0, n) :: rest, k =>
    if k0 = k then (k0, n + 1) :: rest else (k0, n) :: bumpKey rest k

/-- Counts of each seasonal pattern label among customers that have one,
in first-encounter order. -/
def patternCounts (dcs : List DormantCustomer) : List (String × Nat) :=
  dcs.foldl (fun acc c =>
    match c.seasonal_pattern with
    | some p => bumpKey acc p
    | none => acc) []

/-- Python max(patterns, key=patterns.get): the first key attaining the
maximal count in dict order. -/
def firstMaxPattern : List (String × Nat) → Option (String × Nat)
  | [] => none
  | p :: ps =>
    match firstMaxPattern ps with
    | none => some p
    | some q => some (if p.2 < q.2 then q else p)

/-- DormantCustomerProcessor._generate_insights
(data_processor.py lines 358-406).  Numeric formatting inside the insight
strings is rendered with toString instead of Python format specifiers; the
keys, the selection logic and the named entities are as in the code. -/
def generate_insights (dcs : List DormantCustomer)
    (summaries : List SalespersonSummary) : List (String × String) :=
  match dcs, summaries with
  | [], _ => [("error", "No dormant customers found for analysis")]
  | _ :: _, [] => [("error", "No dormant customers found for analysis")]
  | c0 :: ctail, top_rep :: _ =>
    let repName := fun (s : Option String) => s.getD "nan"
    let top_customer := maxByValueFirst c0 ctail
    let base :=
      [("top_priority_rep",
        "Focus on " ++ repName top_rep.salesperson ++ ", who has $" ++
        toString top_rep.total_value_at_risk ++ " in sales at risk across " ++
        toString top_rep.dormant_customer_count ++
        " dormant customers. Average churn risk: " ++
        toString top_rep.average_churn_risk),
       ("top_priority_customer",
        "Prioritize outreach to " ++ top_customer.customer ++
        ". They represent $" ++ toString top_customer.total_6_month_value ++
        " in potential lost revenue and are assigned to " ++
        repName top_customer.salesperson ++ ". Churn risk: " ++
        toString top_customer.churn_risk_score)]
    let quick_wins := summaries.filter (fun s => decide (0 < s.quick_win_count))
    let qwEntry :=
      match firstMaxQuickWin quick_wins with
      | none => []
      | some best =>
        [("quick_wins",
          repName best.salesperson ++ " has " ++ toString best.quick_win_count ++
          " quick-win opportunities (customers with lower values but higher re-engagement potential)")]
    let seasonalEntry :=
      match firstMaxPattern (patternCounts dcs) with
      | none => []
      | some (p, n) =>
        [("seasonal_insight",
          toString n ++ " dormant customers are " ++ p ++
          ". Consider timing outreach based on their seasonal patterns.")]
    base ++ qwEntry ++ seasonalEntry

/-- DormantCustomerProcessor._calculate_accuracy_score
(data_processor.py lines 408-428). -/
def calculate_accuracy_score (qr : DataQualityReport) : ℚ :=
  if qr.total_records = 0 then 0
  else
    let completeness_score := qr.data_completeness_score
    let validity_score : ℚ :=
      1 - ((qr.invalid_dates : ℚ) + (qr.invalid_prices : ℚ)) / (qr.total_records : ℚ)
    let mapping_score : ℚ :=
      1 - (qr.missing_customer_mappings : ℚ) / (qr.total_records : ℚ)
    min (max (completeness_score * 0.4 + validity_score * 0.3 + mapping_score * 0.3) 0) 1

/-- DormantCustomerProcessor.process_files (data_processor.py lines 173-214)
on already-loaded tabular data (file loading belongs to the excluded loader
layer).  The now argument is the wall-clock value datetime.now() of
line 211. -/
def process (sales : List Row) (planning : List (Option String × Option String))
    (cfg : AnalyticsConfig) (now : Int) : ProcessingResult :=
  let v := validate_sales_data sales
  let mapped := applyMappings v.1 planning
  let unmapped := mapped.countP (fun r => r.salesperson.isNone)
  let report := { v.2 with missing_customer_mappings := unmapped }
  let dormant := identify_dormant_customers cfg mapped
  let summaries := generate_salesperson_summaries cfg dormant
  let insights := generate_insights dormant summaries
  let accuracy := calculate_accuracy_score report
  { summary :=
      { total_dormant_customers := dormant.length
        total_value_at_risk := (dormant.map (fun dc => dc.total_6_month_value)).sum
        average_churn_risk :=
          if dormant = [] then 0
          else qMean (dormant.map (fun dc => dc.churn_risk_score))
        data_quality_score := accuracy }
    salesperson_summaries := summaries
    dormant_customers := dormant
    insights := insights
    data_quality_report := report
    processing_timestamp := now
    total_customers_analyzed := (collectKeys strLt (fun r => r.customer) mapped).length
    data_accuracy_score := accuracy }

/-- Spec-side fitted trend: the slope of the linear fit of
monthly-aggregated spend, normalized by the mean monthly spend and mapped
into the unit interval via 0.5 plus slope over mean.  Written from the
spec wording to compare against calculate_value_trend. -/
def specFittedTrend (rows : List MappedRow) : ℚ :=
  max (min (lsSlope (monthlySpending rows) / qMean (monthlySpending rows) + 0.5) 1) 0

/-- Spec-side trend value: the fitted monthly-spend trend whenever the
customer spans at least 2 distinct calendar months, the neutral 0.5 with
fewer.  Written from the spec wording (which has no minimum transaction
count beyond the 2 distinct months). -/
def specTrendValue (rows : List MappedRow) : ℚ :=
  if (monthKeys rows).length < 2 then 1/2 else specFittedTrend rows

/-- Spec-side churn formula: the clamp to the unit interval of
0.4 recency + 0.3 frequency + 0.2 value + 0.1 trend with the sub-scores
as the spec defines them (recency capped at 90 days, frequency from order
count over 30 times the period months, value from average order value over
1000, trend the inverted spec trend value).  Written from the spec wording
to compare against calculate_churn_risk_score. -/
def specChurnFormula (rows : List MappedRow) (cfg : AnalyticsConfig) : ℚ :=
  let days_since_last_order : Int :=
    cfg.today_date.toDays - ((maxDate? (postedDates rows)).getD ⟨1970, 1, 1⟩).toDays
  let recency := min ((days_since_last_order : ℚ) / 90) 1
  let frequency := max (1 - (rows.length : ℚ) / ((cfg.analysis_period_months : ℚ) * 30)) 0
  let value := max (1 - priceMean rows / 1000) 0
  let trend := 1 - specTrendValue rows
  min (max (recency * 0.4 + frequency * 0.3 + value * 0.2 + trend * 0.1) 0) 1

/-- The churn blend as implemented: identical to specChurnFormula except
that the trend sub-score inverts the trend value the code computes, whose
fit additionally requires at least 3 transactions
(data_processor.py line 99). -/
def implChurnFormula (rows : List MappedRow) (cfg : AnalyticsConfig) : ℚ :=
  let days_since_last_order : Int :=
    cfg.today_date.toDays - ((maxDate? (postedDates rows)).getD ⟨1970, 1, 1⟩).toDays
  let recency := min ((days_since_last_order : ℚ) / 90) 1
  let frequency := max (1 - (rows.length : ℚ) / ((cfg.analysis_period_months : ℚ) * 30)) 0
  let value := max (1 - priceMean rows / 1000) 0
  let trend := 1 - calculate_value_trend rows
  min (max (recency * 0.4 + frequency * 0.3 + value * 0.2 + trend * 0.1) 0) 1

/-- A fixed run configuration for concrete checks: as-of 2025-06-01,
45-day dormancy threshold, 6-month window (the spec scenario). -/
def cfg0 : AnalyticsConfig :=
  { today_date := ⟨2025, 6, 1⟩
    dormant_days_threshold := 45
    analysis_period_months := 6
    high_value_threshold := 1000
    quick_win_threshold := 500
    min_orders_for_pattern := 3 }

/-- A fully-populated reconciled row. -/
def mrow (d : Date) (c sp it : String) (q p : ℚ) : MappedRow :=
  { invoice_date := some d, posted_date := some d, customer := some c,
    salesperson := some sp, salesperson_original := some sp,
    item := some it, qty := q, net_price := some p }

/-- The spec scenario: customer A with orders on 2025-01-15 for 150,
2025-02-15 for 300 and 2025-03-15 for 150. -/
def scenarioRows : List MappedRow :=
  [mrow ⟨2025, 1, 15⟩ "A" "Rep" "W1" 1 150,
   mrow ⟨2025, 2, 15⟩ "A" "Rep" "W2" 1 300,
   mrow ⟨2025, 3, 15⟩ "A" "Rep" "W1" 1 150]

/-- Two transactions in two distinct calendar months. -/
def twoRows : List MappedRow :=
  [mrow ⟨2025, 1, 15⟩ "A" "Rep" "W1" 1 100,
   mrow ⟨2025, 2, 15⟩ "A" "Rep" "W1" 1 200]

/-- Three transactions spanning two distinct calendar months. -/
def threeRows : List MappedRow :=
  [mrow ⟨2025, 1, 15⟩ "A" "Rep" "W1" 1 100,
   mrow ⟨2025, 1, 20⟩ "A" "Rep" "W1" 1 50,
   mrow ⟨2025, 2, 15⟩ "A" "Rep" "W1" 1 200]

/-- A raw row whose Net price failed numeric coercion but that is valid
otherwise. -/
def badPriceRow : Row :=
  { invoice_date := some ⟨2024, 7, 22⟩, posted_date := some ⟨2024, 7, 22⟩,
    customer := some "C1", salesperson := some "S", item := some "I",
    qty := 1, net_price := none }

/-- A raw row for customer A originally owned by Old Rep. -/
def rawRowA : Row :=
  { invoice_date := some ⟨2025, 1, 15⟩, posted_date := some ⟨2025, 1, 15⟩,
    customer := some "Customer A", salesperson := some "Old Rep",
    item := some "W1", qty := 1, net_price := some 150 }

/-- A planning table assigning customer A to Mike Allen. -/
def planning0 : List (Option String × Option String) :=
  [(some "Customer A", some "Mike Allen")]

/-- The dormant record the engine builds for customer A of the spec
scenario. -/
def dcA : DormantCustomer :=
  mkDormantCustomer cfg0 "A" (customerRows (periodSales cfg0 scenarioRows) "A")

/-- Six dated transactions, enough for seasonal-pattern detection. -/
def sixRows : List MappedRow :=
  [mrow ⟨2025, 1, 10⟩ "A" "Rep" "W1" 1 100,
   mrow ⟨2025, 2, 10⟩ "A" "Rep" "W1" 1 100,
   mrow ⟨2025, 3, 10⟩ "A" "Rep" "W1" 1 100,
   mrow ⟨2025, 3, 20⟩ "A" "Rep" "W1" 1 100,
   mrow ⟨2025, 4, 10⟩ "A" "Rep" "W1" 1 100,
   mrow ⟨2025, 5, 10⟩ "A" "Rep" "W1" 1 100]

/-- Membership in a sorted-insert is membership in the inserted key or the
original list. -/
theorem mem_insertKey {α : Type} [DecidableEq α] (lt : α → α → Bool) (a b : α) :
    ∀ l : List α, a ∈ insertKey lt b l ↔ a = b ∨ a ∈ l := by
  intro l
  induction l with
  | nil => simp [insertKey]
  | cons x xs ih =>
    by_cases h1 : b = x
    · subst h1
      simp only [insertKey, if_pos rfl]
      constructor
      · intro h; exact Or.inr h
      · intro h; rcases h with h | h
        · exact h ▸ List.mem_cons_self _ _
        · exact h
    · by_cases h2 : lt b x
      · simp only [insertKey, if_neg h1, if_pos h2]
        exact List.mem_cons
      · simp only [insertKey, if_neg h1, if_neg h2]
        simp only [List.mem_cons, ih]
        tauto

/-- Membership in the folded group-key accumulator. -/
theorem mem_collectKeys_aux {α : Type} [DecidableEq α] (lt : α → α → Bool)
    (f : MappedRow → Option α) (k : α) :
    ∀ (l : List MappedRow) (acc : List α),
      (k ∈ l.foldl
        (fun acc r => match f r with | some k2 => insertKey lt k2 acc | none => acc) acc) ↔
        (k ∈ acc ∨ ∃ r ∈ l, f r = some k) := by
  intro l
  induction l with
  | nil => intro acc; simp
  | cons r rs ih =>
    intro acc
    simp only [List.foldl_cons]
    cases hf : f r with
    | none =>
      dsimp only
      rw [ih]
      constructor
      · intro h
        rcases h with h | ⟨r2, hr2, hfr2⟩
        · exact Or.inl h
        · exact Or.inr ⟨r2, List.mem_cons_of_mem _ hr2, hfr2⟩
      · intro h
        rcases h with h | ⟨r2, hr2, hfr2⟩
        · exact Or.inl h
        · rcases List.mem_cons.mp hr2 with h2 | h2
          · subst h2; rw [hfr2] at hf; cases hf
          · exact Or.inr ⟨r2, h2, hfr2⟩
    | some k2 =>
      dsimp only
      rw [ih, mem_insertKey]
      constructor
      · intro h
        rcases h with (h | h) | ⟨r2, hr2, hfr2⟩
        · exact Or.inr ⟨r, List.mem_cons_self _ _, by rw [hf, h]⟩
        · exact Or.inl h
        · exact Or.inr ⟨r2, List.mem_cons_of_mem _ hr2, hfr2⟩
      · intro h
        rcases h with h | ⟨r2, hr2, hfr2⟩
        · exact Or.inl (Or.inr h)
        · rcases List.mem_cons.mp hr2 with h2 | h2
          · subst h2
            rw [hfr2] at hf
            injection hf with hf
            exact Or.inl (Or.inl hf)
          · exact Or.inr ⟨r2, h2, hfr2⟩

/-- A key is a group key exactly when some row carries it. -/
theorem mem_collectKeys {α : Type} [DecidableEq α] (lt : α → α → Bool)
    (f : MappedRow → Option α) (k : α) (rows : List MappedRow) :
    k ∈ collectKeys lt f rows ↔ ∃ r ∈ rows, f r = some k := by
  rw [collectKeys, mem_collectKeys_aux]
  simp

/-- The maximum date of a list exists exactly when the list is nonempty. -/
theorem maxDate?_eq_none_iff : ∀ l : List Date, maxDate? l = none ↔ l = [] := by
  intro l
  cases l with
  | nil => simp [maxDate?]
  | cons d ds =>
    simp only [maxDate?]
    cases maxDate? ds <;> simp

/-- A row belongs to a customer's rows exactly when it belongs to
the base rows and carries that customer. -/
theorem mem_customerRows (rows : List MappedRow) (c : String) (r : MappedRow) :
    r ∈ customerRows rows c ↔ r ∈ rows ∧ r.customer = some c := by
  simp [customerRows]

/-- The clamp of any rational to the unit interval lies in the unit
interval. -/
theorem clamp01_bounds (x : ℚ) : 0 ≤ min (max x 0) 1 ∧ min (max x 0) 1 ≤ 1 :=
  ⟨le_min (le_max_right x 0) zero_le_one, min_le_right _ _⟩

/-- The value trend always lies in the unit interval. -/
theorem calculate_value_trend_bounds (rows : List MappedRow) :
    0 ≤ calculate_value_trend rows ∧ calculate_value_trend rows ≤ 1 := by
  by_cases h1 : rows.length < 3
  · simp [calculate_value_trend, h1]
    norm_num
  · by_cases h2 : (monthlySpending rows).length < 2
    · simp [calculate_value_trend, h1, h2]
      norm_num
    · simp only [calculate_value_trend, if_neg h1, if_neg h2]
      exact ⟨le_max_right _ _, max_le (min_le_right _ _) zero_le_one⟩

/-- The mean of a nonempty list of unit-interval rationals lies in the
unit interval. -/
theorem qMean_bounds (l : List ℚ) (h : l ≠ [])
    (hb : ∀ x ∈ l, 0 ≤ x ∧ x ≤ 1) : 0 ≤ qMean l ∧ qMean l ≤ 1 := by
  have hpos : 0 < (l.length : ℚ) := by
    have := List.length_pos.mpr h
    exact_mod_cast this
  have hsum0 : 0 ≤ l.sum := List.sum_nonneg (fun x hx => (hb x hx).1)
  have hsum1 : l.sum ≤ (l.length : ℚ) := by
    have := List.sum_le_card_nsmul l 1 (fun x hx => (hb x hx).2)
    simpa using this
  constructor
  · exact div_nonneg hsum0 (le_of_lt hpos)
  · rw [qMean, div_le_one hpos]
    exact hsum1

/-- Folding one customer into the rep dict adds exactly its window value
to the dict-wide total. -/
theorem upsert_total (cfg : AnalyticsConfig) (c : DormantCustomer) :
    ∀ acc : List (Option String × RepData),
      ((upsert cfg acc c).map (fun p => p.2.total_value)).sum =
        ((acc.map (fun p => p.2.total_value)).sum) + c.total_6_month_value := by
  intro acc
  induction acc with
  | nil => simp [upsert, addCustomer, emptyRepData]
  | cons p rest ih =>
    rcases p with ⟨k, d⟩
    by_cases h : k = c.salesperson
    · simp only [upsert, if_pos h, List.map_cons, List.sum_cons, addCustomer]
      ring
    · simp only [upsert, if_neg h, List.map_cons, List.sum_cons, ih]
      ring

/-- The grand total of the rep dict after processing a customer list is
the accumulator total plus the sum of the customers' window values. -/
theorem foldl_upsert_total (cfg : AnalyticsConfig) :
    ∀ (dcs : List DormantCustomer) (acc : List (Option String × RepData)),
      ((dcs.foldl (upsert cfg) acc).map (fun p => p.2.total_value)).sum =
        ((acc.map (fun p => p.2.total_value)).sum) +
          (dcs.map (fun c => c.total_6_month_value)).sum := by
  intro dcs
  induction dcs with
  | nil => intro acc; simp
  | cons c cs ih =>
    intro acc
    simp only [List.foldl_cons, List.map_cons, List.sum_cons, ih, upsert_total]
    ring

/-- The keys of the rep dict after one upsert: unchanged when the
customer's rep is present, extended by it at the end otherwise. -/
theorem upsert_keys (cfg : AnalyticsConfig) (c : DormantCustomer) :
    ∀ acc : List (Option String × RepData),
      (upsert cfg acc c).map Prod.fst =
        if c.salesperson ∈ acc.map Prod.fst then acc.map Prod.fst
        else acc.map Prod.fst ++ [c.salesperson] := by
  intro acc
  induction acc with
  | nil => simp [upsert]
  | cons p rest ih =>
    rcases p with ⟨k, d⟩
    by_cases h : k = c.salesperson
    · simp [upsert, if_pos h, h]
    · simp only [upsert, if_neg h, List.map_cons, ih]
      by_cases h2 : c.salesperson ∈ rest.map Prod.fst
      · simp [h2, Ne.symm h]
      · simp [h2, Ne.symm h]

/-- Key membership after one upsert. -/
theorem mem_upsert_keys (cfg : AnalyticsConfig) (c : DormantCustomer)
    (acc : List (Option String × RepData)) (k : Option String) :
    k ∈ (upsert cfg acc c).map Prod.fst ↔
      k ∈ acc.map Prod.fst ∨ k = c.salesperson := by
  rw [upsert_keys]
  by_cases h : c.salesperson ∈ acc.map Prod.fst
  · rw [if_pos h]
    constructor
    · exact Or.inl
    · intro h2
      rcases h2 with h2 | h2
      · exact h2
      · exact h2 ▸ h
  · rw [if_neg h]
    simp

/-- One upsert preserves distinctness of the dict keys. -/
theorem nodup_upsert_keys (cfg : AnalyticsConfig) (c : DormantCustomer)
    (acc : List (Option String × RepData))
    (h : (acc.map Prod.fst).Nodup) : ((upsert cfg acc c).map Prod.fst).Nodup := by
  rw [upsert_keys]
  by_cases hm : c.salesperson ∈ acc.map Prod.fst
  · rw [if_pos hm]; exact h
  · rw [if_neg hm]
    simp [List.nodup_append, h, hm]

/-- The rep dict built from any accumulator with distinct keys has
distinct keys. -/
theorem foldl_upsert_nodup (cfg : AnalyticsConfig) :
    ∀ (dcs : List DormantCustomer) (acc : List (Option String × RepData)),
      (acc.map Prod.fst).Nodup → ((dcs.foldl (upsert cfg) acc).map Prod.fst).Nodup := by
  intro dcs
  induction dcs with
  | nil => intro acc h; exact h
  | cons c cs ih =>
    intro acc h
    exact ih _ (nodup_upsert_keys cfg c acc h)

/-- Keys are never removed by later upserts. -/
theorem mem_keys_foldl_mono (cfg : AnalyticsConfig) :
    ∀ (dcs : List DormantCustomer) (acc : List (Option String × RepData))
      (k : Option String), k ∈ acc.map Prod.fst →
      k ∈ ((dcs.foldl (upsert cfg) acc).map Prod.fst) := by
  intro dcs
  induction dcs with
  | nil => intro acc k h; exact h
  | cons c cs ih =>
    intro acc k h
    exact ih _ k ((mem_upsert_keys cfg c acc k).mpr (Or.inl h))

/-- Every processed customer's rep is a key of the final dict. -/
theorem mem_keys_foldl_of_mem (cfg : AnalyticsConfig) :
    ∀ (dcs : List DormantCustomer) (acc : List (Option String × RepData))
      (dc : DormantCustomer), dc ∈ dcs →
      dc.salesperson ∈ ((dcs.foldl (upsert cfg) acc).map Prod.fst) := by
  intro dcs
  induction dcs with
  | nil => intro acc dc h; cases h
  | cons c cs ih =>
    intro acc dc h
    rcases List.mem_cons.mp h with h | h
    · subst h
      exact mem_keys_foldl_mono cfg cs _ _
        ((mem_upsert_keys cfg dc acc _).mpr (Or.inr rfl))
    · exact ih _ dc h

/-- One upsert preserves the risk-score invariant: every dict entry has a
nonempty score list with all scores in the unit interval. -/
theorem upsert_risk_scores (cfg : AnalyticsConfig) (c : DormantCustomer)
    (hc : 0 ≤ c.churn_risk_score ∧ c.churn_risk_score ≤ 1) :
    ∀ acc : List (Option String × RepData),
      (∀ e ∈ acc, e.2.risk_scores ≠ [] ∧ ∀ x ∈ e.2.risk_scores, 0 ≤ x ∧ x ≤ 1) →
      ∀ e ∈ upsert cfg acc c,
        e.2.risk_scores ≠ [] ∧ ∀ x ∈ e.2.risk_scores, 0 ≤ x ∧ x ≤ 1 := by
  intro acc
  induction acc with
  | nil =>
    intro _ e he
    simp only [upsert, List.mem_singleton] at he
    subst he
    constructor
    · simp [addCustomer, emptyRepData]
    · intro x hx
      simp [addCustomer, emptyRepData] at hx
      rw [hx]
      exact hc
  | cons p rest ih =>
    intro hacc e he
    rcases p with ⟨k, d⟩
    by_cases h : k = c.salesperson
    · simp only [upsert, if_pos h] at he
      rcases List.mem_cons.mp he with he | he
      · subst he
        have hd := hacc (k, d) (List.mem_cons_self _ _)
        constructor
        · simp [addCustomer]
        · intro x hx
          simp only [addCustomer, List.mem_append, List.mem_singleton] at hx
          rcases hx with hx | hx
          · exact hd.2 x hx
          · rw [hx]; exact hc
      · exact hacc e (List.mem_cons_of_mem _ he)
    · simp only [upsert, if_neg h] at he
      rcases List.mem_cons.mp he with he | he
      · subst he
        exact hacc (k, d) (List.mem_cons_self _ _)
      · exact ih (fun e2 he2 => hacc e2 (List.mem_cons_of_mem _ he2)) e he

/-- The risk-score invariant holds for the whole rep dict when every
processed customer has a unit-interval score. -/
theorem foldl_upsert_risk_scores (cfg : AnalyticsConfig) :
    ∀ (dcs : List DormantCustomer) (acc : List (Option String × RepData)),
      (∀ c ∈ dcs, 0 ≤ c.churn_risk_score ∧ c.churn_risk_score ≤ 1) →
      (∀ e ∈ acc, e.2.risk_scores ≠ [] ∧ ∀ x ∈ e.2.risk_scores, 0 ≤ x ∧ x ≤ 1) →
      ∀ e ∈ dcs.foldl (upsert cfg) acc,
        e.2.risk_scores ≠ [] ∧ ∀ x ∈ e.2.risk_scores, 0 ≤ x ∧ x ≤ 1 := by
  intro dcs
  induction dcs with
  | nil => intro acc _ hacc e he; exact hacc e he
  | cons c cs ih =>
    intro acc hdcs hacc e he
    exact ih _ (fun c2 hc2 => hdcs c2 (List.mem_cons_of_mem _ hc2))
      (upsert_risk_scores cfg c (hdcs c (List.mem_cons_self _ _)) acc hacc) e he

/-- The unused min_orders_for_pattern field does not change the dict
fold. -/
theorem upsert_min_irrel (td : Date) (dd am : Int) (hv qw : ℚ) (n1 n2 : Int)
    (c : DormantCustomer) :
    ∀ acc, upsert ⟨td, dd, am, hv, qw, n1⟩ acc c = upsert ⟨td, dd, am, hv, qw, n2⟩ acc c := by
  intro acc
  induction acc with
  | nil => rfl
  | cons p rest ih =>
    rcases p with ⟨k, d⟩
    by_cases h : k = c.salesperson
    · simp only [upsert, if_pos h]
      rfl
    · simp only [upsert, if_neg h, ih]

/-- C8: On empty input the run degrades gracefully rather than failing:
when total_records is 0 the accuracy score is exactly 0, and whenever the
dormant-customer list or the summary list is empty the insight synthesizer
returns a single error-marker entry instead of any partial insights. -/
theorem C8_empty_input_graceful :
    (∀ qr : DataQualityReport, qr.total_records = 0 → calculate_accuracy_score qr = 0) ∧
    (∀ (dcs : List DormantCustomer) (ss : List SalespersonSummary),
      dcs = [] ∨ ss = [] →
      generate_insights dcs ss = [("error", "No dormant customers found for analysis")]) := by
  constructor
  · intro qr h
    simp [calculate_accuracy_score, h]
  · intro dcs ss h
    rcases h with h | h
    · subst h; rfl
    · subst h
      cases dcs with
      | nil => rfl
      | cons c cs => rfl

/-- Witness for C8 at the empty report and empty lists. -/
theorem C8_witness :
    calculate_accuracy_score ⟨0, 0, 0, 0, 0, 0, 0, []⟩ = 0 ∧
    generate_insights [] [] = [("error", "No dormant customers found for analysis")] :=
  ⟨C8_empty_input_graceful.1 ⟨0, 0, 0, 0, 0, 0, 0, []⟩ rfl,
   C8_empty_input_graceful.2 [] [] (Or.inl rfl)⟩

/-- C6: the quality report's invalid_prices field is recomputed after the
fillna of the price column (data_processor.py line 57 versus line 42), so
it is 0 for every input batch, even when a price failed numeric coercion;
the issues list built on line 41 still reports the failure, contradicting
the report field. -/
theorem C6_invalid_prices_bug :
    (∀ df : List Row, (validate_sales_data df).2.invalid_prices = 0) ∧
    (validate_sales_data [badPriceRow]).2.invalid_prices = 0 ∧
    [badPriceRow].countP (fun r => r.net_price.isNone) = 1 ∧
    (validate_sales_data [badPriceRow]).2.recommendations = ["1 invalid prices"] := by
  refine ⟨?_, rfl, rfl, rfl⟩
  intro df
  simp only [validate_sales_data]
  rw [List.countP_eq_zero]
  intro r hr
  rcases List.mem_map.mp hr with ⟨r0, _, hmap⟩
  subst hmap
  simp

/-- C7: after ownership reconciliation, a record whose customer is mapped
to a representative carries that representative; a record whose customer is
absent from the mapping keeps its original salesperson; the pre-resolution
salesperson is always retained alongside the resolved one. -/
theorem C7_ownership_reconciliation :
    ∀ (planning : List (Option String × Option String)) (sales : List Row) (r : Row),
      applyMappings sales planning = sales.map (resolveRow planning) ∧
      (resolveRow planning r).salesperson_original = r.salesperson ∧
      (∀ c rep, r.customer = some c → mapLookup planning c = some (some rep) →
        (resolveRow planning r).salesperson = some rep) ∧
      (∀ c, r.customer = some c → mapLookup planning c = none →
        (resolveRow planning r).salesperson = r.salesperson) := by
  intro planning sales r
  refine ⟨rfl, rfl, ?_, ?_⟩
  · intro c rep hc hl
    simp [resolveRow, hc, hl]
  · intro c hc hl
    simp [resolveRow, hc, hl]

/-- Witness for C7: the planning row mapping customer A to Mike Allen
overrides the original owner Old Rep, which is retained for audit. -/
theorem C7_witness :
    (resolveRow planning0 rawRowA).salesperson = some "Mike Allen" ∧
    (resolveRow planning0 rawRowA).salesperson_original = some "Old Rep" :=
  ⟨(C7_ownership_reconciliation planning0 [rawRowA] rawRowA).2.2.1
      "Customer A" "Mike Allen" rfl (by decide),
   (C7_ownership_reconciliation planning0 [rawRowA] rawRowA).2.1⟩

/-- C3 counterexample: two runs on identical inputs and config but at
different wall-clock instants give different ProcessingResult values,
because process_files stamps datetime.now() into processing_timestamp. -/
theorem C3_counterexample : process [] [] cfg0 0 ≠ process [] [] cfg0 1 := by
  intro h
  have h2 : (0 : Int) = 1 := congrArg ProcessingResult.processing_timestamp h
  exact absurd h2 (by decide)

/-- C3 amended: two runs on identical inputs and identical config agree on
every field of the result except processing_timestamp. -/
theorem C3_determinism_except_timestamp :
    ∀ (sales : List Row) (planning : List (Option String × Option String))
      (cfg : AnalyticsConfig) (t1 t2 : Int),
      (process sales planning cfg t1).summary = (process sales planning cfg t2).summary ∧
      (process sales planning cfg t1).salesperson_summaries =
        (process sales planning cfg t2).salesperson_summaries ∧
      (process sales planning cfg t1).dormant_customers =
        (process sales planning cfg t2).dormant_customers ∧
      (process sales planning cfg t1).insights = (process sales planning cfg t2).insights ∧
      (process sales planning cfg t1).data_quality_report =
        (process sales planning cfg t2).data_quality_report ∧
      (process sales planning cfg t1).total_customers_analyzed =
        (process sales planning cfg t2).total_customers_analyzed ∧
      (process sales planning cfg t1).data_accuracy_score =
        (process sales planning cfg t2).data_accuracy_score :=
  fun _ _ _ _ _ => ⟨rfl, rfl, rfl, rfl, rfl, rfl, rfl⟩

/-- Case analysis of the trend computation: fitted with at least 3 rows
spanning at least 2 distinct months, the 0.5 default otherwise. -/
theorem calculate_value_trend_eq (rows : List MappedRow) :
    (3 ≤ rows.length ∧ 2 ≤ (monthKeys rows).length →
      calculate_value_trend rows = specFittedTrend rows) ∧
    (rows.length < 3 ∨ (monthKeys rows).length < 2 →
      calculate_value_trend rows = 1/2) := by
  have hlen : (monthlySpending rows).length = (monthKeys rows).length :=
    List.length_map _ _
  constructor
  · rintro ⟨h1, h2⟩
    rw [calculate_value_trend, if_neg (by omega)]
    rw [if_neg (by omega), specFittedTrend]
  · intro h
    rcases h with h | h
    · rw [calculate_value_trend, if_pos h]
    · rw [calculate_value_trend]
      by_cases h3 : rows.length < 3
      · rw [if_pos h3]
      · rw [if_neg h3, if_pos (by omega)]

/-- The trend the code computes agrees with the spec-side trend value
exactly on the inputs with at least 3 rows or fewer than 2 distinct
months. -/
theorem calculate_value_trend_eq_spec (rows : List MappedRow)
    (h : 3 ≤ rows.length ∨ (monthKeys rows).length < 2) :
    calculate_value_trend rows = specTrendValue rows := by
  rcases h with h | h
  · by_cases h2 : (monthKeys rows).length < 2
    · rw [(calculate_value_trend_eq rows).2 (Or.inr h2), specTrendValue, if_pos h2]
    · rw [(calculate_value_trend_eq rows).1 ⟨h, by omega⟩, specTrendValue, if_neg h2]
  · rw [(calculate_value_trend_eq rows).2 (Or.inr h), specTrendValue, if_pos h]

/-- C5 counterexample: a customer with exactly 2 transactions in 2 distinct
calendar months gets the neutral default 0.5, not the fitted trend, because
_calculate_value_trend returns early for fewer than 3 rows
(data_processor.py line 99). -/
theorem C5_counterexample :
    2 ≤ (monthKeys twoRows).length ∧
    calculate_value_trend twoRows ≠ specFittedTrend twoRows := by
  constructor
  · decide
  · have h1 : calculate_value_trend twoRows = 1/2 := by
      rw [calculate_value_trend, if_pos (by decide)]
    have h2 : monthlySpending twoRows = [100, 200] := by
      simp [monthlySpending, monthKeys, collectKeys, twoRows, mrow, insertKey,
        monthLt, Date.monthKey, priceSum]
    have h3 : specFittedTrend twoRows = 1 := by
      rw [specFittedTrend, h2]
      norm_num [lsSlope, qMean, List.range_succ]
    rw [h1, h3]
    norm_num

/-- C5 amended: the trend sub-score is the fitted monthly-spend trend
whenever the customer has at least 3 transactions spanning at least 2
distinct calendar months, and defaults to the neutral 0.5 when there are
fewer than 3 transactions or fewer than 2 distinct months. -/
theorem C5_trend_requires_three_rows :
    ∀ rows : List MappedRow,
      (3 ≤ rows.length ∧ 2 ≤ (monthKeys rows).length →
        calculate_value_trend rows = specFittedTrend rows) ∧
      (rows.length < 3 ∨ (monthKeys rows).length < 2 →
        calculate_value_trend rows = 1/2) :=
  fun rows => calculate_value_trend_eq rows

/-- Witness for the amended C5: three transactions over two distinct
months get the fitted trend. -/
theorem C5_witness : calculate_value_trend threeRows = specFittedTrend threeRows :=
  (C5_trend_requires_three_rows threeRows).1 ⟨by decide, by decide⟩

/-- C2: aggregation conserves total value: the sum of total_value_at_risk
over all representative summaries equals the sum of total_6_month_value
over all dormant customers, both for any dormant list and for the lists
inside a run result. -/
theorem C2_value_conservation :
    (∀ (cfg : AnalyticsConfig) (dcs : List DormantCustomer),
      ((generate_salesperson_summaries cfg dcs).map
        (fun s => s.total_value_at_risk)).sum =
      (dcs.map (fun c => c.total_6_month_value)).sum) ∧
    (∀ (sales : List Row) (planning : List (Option String × Option String))
       (cfg : AnalyticsConfig) (t : Int),
      (((process sales planning cfg t).salesperson_summaries).map
        (fun s => s.total_value_at_risk)).sum =
      (((process sales planning cfg t).dormant_customers).map
        (fun c => c.total_6_month_value)).sum) := by
  have main : ∀ (cfg : AnalyticsConfig) (dcs : List DormantCustomer),
      ((generate_salesperson_summaries cfg dcs).map
        (fun s => s.total_value_at_risk)).sum =
      (dcs.map (fun c => c.total_6_month_value)).sum := by
    intro cfg dcs
    have hperm : List.Perm (generate_salesperson_summaries cfg dcs)
        ((repData cfg dcs).map mkSummary) := List.perm_insertionSort _ _
    have h1 : ((generate_salesperson_summaries cfg dcs).map
        (fun s => s.total_value_at_risk)).sum =
        (((repData cfg dcs).map mkSummary).map (fun s => s.total_value_at_risk)).sum :=
      List.Perm.sum_eq (hperm.map _)
    rw [h1, List.map_map]
    have h2 : ((repData cfg dcs).map ((fun s => s.total_value_at_risk) ∘ mkSummary)).sum
        = ((repData cfg dcs).map (fun p => p.2.total_value)).sum := rfl
    rw [h2, repData, foldl_upsert_total]
    simp
  exact ⟨main, fun sales planning cfg t =>
    main cfg (identify_dormant_customers cfg
      (applyMappings (validate_sales_data sales).1 planning))⟩

/-- C10: for windowed transaction sets (every row carries a posted date),
the seasonal pattern is non-None exactly when the customer has at least 6
transactions; and the min_orders_for_pattern config field has no effect on
the run result. -/
theorem C10_seasonal_threshold_and_unused_config :
    (∀ rows : List MappedRow, (∀ r ∈ rows, r.posted_date.isSome) →
      ((identify_seasonal_patterns rows).isSome ↔ 6 ≤ rows.length)) ∧
    (∀ (sales : List Row) (planning : List (Option String × Option String))
       (cfg : AnalyticsConfig) (n t : Int),
      process sales planning { cfg with min_orders_for_pattern := n } t =
        process sales planning cfg t) := by
  constructor
  · intro rows hall
    by_cases h6 : rows.length < 6
    · rw [identify_seasonal_patterns, if_pos h6]
      simp
      omega
    · have hne : rows ≠ [] := by
        intro h
        rw [h] at h6
        simp at h6
      obtain ⟨r, hr⟩ := List.exists_mem_of_ne_nil rows hne
      obtain ⟨d, hd⟩ := Option.isSome_iff_exists.mp (hall r hr)
      have hmem : d.month ∈ collectKeys (fun a b => decide (a < b))
          (fun r => r.posted_date.map (fun d => d.month)) rows :=
        (mem_collectKeys _ _ _ _).mpr ⟨r, hr, by rw [hd]; rfl⟩
      have hm : collectKeys (fun a b => decide (a < b))
          (fun r => r.posted_date.map (fun d => d.month)) rows ≠ [] :=
        List.ne_nil_of_mem hmem
      rw [identify_seasonal_patterns, if_neg h6]
      simp only [if_neg hm]
      refine iff_of_true ?_ (by omega)
      split
      · rfl
      · split
        · rfl
        · split
          · rfl
          · split
            · rfl
            · rfl
  · intro sales planning cfg n t
    cases cfg with
    | mk td dd am hv qw mo =>
      have hupsert : upsert ⟨td, dd, am, hv, qw, n⟩ = upsert ⟨td, dd, am, hv, qw, mo⟩ := by
        funext acc c
        exact upsert_min_irrel td dd am hv qw n mo c acc
      show process sales planning ⟨td, dd, am, hv, qw, n⟩ t =
        process sales planning ⟨td, dd, am, hv, qw, mo⟩ t
      simp only [process, generate_salesperson_summaries, repData, hupsert]
      rfl

/-- Witness for C10: six dated transactions yield a seasonal pattern. -/
theorem C10_witness :
    (identify_seasonal_patterns sixRows).isSome ∧ 6 ≤ sixRows.length := by
  have h := C10_seasonal_threshold_and_unused_config.1 sixRows (by decide)
  exact ⟨h.mpr (by decide), by decide⟩

/-- In a list with distinct elements containing a key, exactly one element
equals the key. -/
theorem countP_eq_one_of_nodup_mem {α : Type} [BEq α] [LawfulBEq α]
    (k : α) :
    ∀ l : List α, l.Nodup → k ∈ l → l.countP (fun x => x == k) = 1 := by
  intro l
  induction l with
  | nil => intro _ hm; cases hm
  | cons a as ih =>
    intro hn hm
    rw [List.countP_cons]
    rcases List.mem_cons.mp hm with h | h
    · subst h
      have hnot : k ∉ as := (List.nodup_cons.mp hn).1
      have h0 : as.countP (fun x => x == k) = 0 :=
        List.countP_eq_zero.mpr (fun x hx => by
          simp only [beq_iff_eq]
          intro he
          exact hnot (he ▸ hx))
      rw [h0]
      simp
    · have hne : ¬ (a == k) = true := by
        simp only [beq_iff_eq]
        intro he
        exact (List.nodup_cons.mp hn).1 (he ▸ h)
      rw [ih (List.nodup_cons.mp hn).2 h]
      simp [hne]

/-- C4 counterexample: on 2 transactions in 2 distinct months the churn
score as computed differs from the clamp of the weighted blend with the
spec sub-scores, because the trend sub-score of the code defaults to 0.5
below 3 transactions while the spec fits the trend from 2 distinct
months. -/
theorem C4_counterexample :
    twoRows ≠ [] ∧
    calculate_churn_risk_score twoRows cfg0 ≠ specChurnFormula twoRows cfg0 := by
  constructor
  · decide
  · have hmax : maxDate? (postedDates twoRows) = some ⟨2025, 2, 15⟩ := by decide
    have hdays : cfg0.today_date.toDays - (Date.toDays ⟨2025, 2, 15⟩) = 106 := by decide
    have hmean : priceMean twoRows = 150 := by
      simp [priceMean, twoRows, mrow]
      norm_num
    have htrend : calculate_value_trend twoRows = 1/2 :=
      (calculate_value_trend_eq twoRows).2 (Or.inl (by decide))
    have hms : monthlySpending twoRows = [100, 200] := by
      simp [monthlySpending, monthKeys, collectKeys, twoRows, mrow, insertKey,
        monthLt, Date.monthKey, priceSum]
    have hfit : specFittedTrend twoRows = 1 := by
      rw [specFittedTrend, hms]
      norm_num [lsSlope, qMean, List.range_succ]
    have hstv : specTrendValue twoRows = 1 := by
      rw [specTrendValue, if_neg (by decide), hfit]
    have hcode : calculate_churn_risk_score twoRows cfg0 = 11/12 := by
      simp only [calculate_churn_risk_score, if_neg (show twoRows ≠ [] by decide),
        hmax, htrend, hmean]
      simp only [Option.getD_some, cfg0]
      rw [show Date.toDays ⟨2025, 6, 1⟩ - Date.toDays ⟨2025, 2, 15⟩ = 106 from by decide]
      rw [show twoRows.length = 2 from rfl]
      norm_num [min_def, max_def]
    have hspec : specChurnFormula twoRows cfg0 = 13/15 := by
      simp only [specChurnFormula, hmax, hstv, hmean]
      simp only [Option.getD_some, cfg0]
      rw [show Date.toDays ⟨2025, 6, 1⟩ - Date.toDays ⟨2025, 2, 15⟩ = 106 from by decide]
      rw [show twoRows.length = 2 from rfl]
      norm_num [min_def, max_def]
    rw [hcode, hspec]
    norm_num

/-- C4 amended: for a nonempty windowed transaction set the churn-risk
score equals the clamp to the unit interval of the weighted blend
0.4 recency + 0.3 frequency + 0.2 value + 0.1 trend where recency,
frequency and value are the spec sub-scores and the trend sub-score
inverts the trend value the code computes (fitted only from 3 or more
transactions); the score agrees with the full spec formula whenever the
customer has at least 3 transactions or spans fewer than 2 distinct
months; consequently every churn risk score lies in the unit interval,
and so does every representative summary's average churn risk. -/
theorem C4_churn_risk_blend_and_bounds :
    (∀ (cfg : AnalyticsConfig) (rows : List MappedRow), rows ≠ [] →
      calculate_churn_risk_score rows cfg = implChurnFormula rows cfg) ∧
    (∀ (cfg : AnalyticsConfig) (rows : List MappedRow), rows ≠ [] →
      3 ≤ rows.length ∨ (monthKeys rows).length < 2 →
      calculate_churn_risk_score rows cfg = specChurnFormula rows cfg) ∧
    (∀ (cfg : AnalyticsConfig) (rows : List MappedRow),
      0 ≤ calculate_churn_risk_score rows cfg ∧
        calculate_churn_risk_score rows cfg ≤ 1) ∧
    (∀ (cfg : AnalyticsConfig) (dcs : List DormantCustomer),
      (∀ c ∈ dcs, 0 ≤ c.churn_risk_score ∧ c.churn_risk_score ≤ 1) →
      ∀ s ∈ generate_salesperson_summaries cfg dcs,
        0 ≤ s.average_churn_risk ∧ s.average_churn_risk ≤ 1) ∧
    (∀ (cfg : AnalyticsConfig) (sales : List MappedRow),
      ∀ dc ∈ identify_dormant_customers cfg sales,
        0 ≤ dc.churn_risk_score ∧ dc.churn_risk_score ≤ 1) ∧
    (∀ (cfg : AnalyticsConfig) (sales : List MappedRow),
      ∀ s ∈ generate_salesperson_summaries cfg (identify_dormant_customers cfg sales),
        0 ≤ s.average_churn_risk ∧ s.average_churn_risk ≤ 1) := by
  have hbounds : ∀ (cfg : AnalyticsConfig) (rows : List MappedRow),
      0 ≤ calculate_churn_risk_score rows cfg ∧
        calculate_churn_risk_score rows cfg ≤ 1 := by
    intro cfg rows
    rw [calculate_churn_risk_score]
    split
    · norm_num
    · exact clamp01_bounds _
  have hsumm : ∀ (cfg : AnalyticsConfig) (dcs : List DormantCustomer),
      (∀ c ∈ dcs, 0 ≤ c.churn_risk_score ∧ c.churn_risk_score ≤ 1) →
      ∀ s ∈ generate_salesperson_summaries cfg dcs,
        0 ≤ s.average_churn_risk ∧ s.average_churn_risk ≤ 1 := by
    intro cfg dcs hdcs s hs
    rw [generate_salesperson_summaries] at hs
    have hs2 : s ∈ (repData cfg dcs).map mkSummary :=
      (List.perm_insertionSort _ _).mem_iff.mp hs
    obtain ⟨e, he, hmk⟩ := List.mem_map.mp hs2
    have hrs := foldl_upsert_risk_scores cfg dcs [] hdcs (by simp) e he
    subst hmk
    simp only [mkSummary, if_neg hrs.1]
    exact qMean_bounds _ hrs.1 hrs.2
  have hid : ∀ (cfg : AnalyticsConfig) (sales : List MappedRow),
      ∀ dc ∈ identify_dormant_customers cfg sales,
        0 ≤ dc.churn_risk_score ∧ dc.churn_risk_score ≤ 1 := by
    intro cfg sales dc hdc
    simp only [identify_dormant_customers] at hdc
    obtain ⟨name, _, hsome⟩ := List.mem_filterMap.mp hdc
    split at hsome
    · cases hsome
    · have hdc2 := Option.some.inj hsome
      rw [← hdc2]
      exact hbounds cfg _
  have hformula : ∀ (cfg : AnalyticsConfig) (rows : List MappedRow), rows ≠ [] →
      calculate_churn_risk_score rows cfg = implChurnFormula rows cfg := by
    intro cfg rows h
    have hvt := (calculate_value_trend_bounds rows).2
    simp only [calculate_churn_risk_score, if_neg h, implChurnFormula]
    rw [max_eq_left (by linarith : (0 : ℚ) ≤ 1 - calculate_value_trend rows)]
  have hspec : ∀ (cfg : AnalyticsConfig) (rows : List MappedRow), rows ≠ [] →
      3 ≤ rows.length ∨ (monthKeys rows).length < 2 →
      calculate_churn_risk_score rows cfg = specChurnFormula rows cfg := by
    intro cfg rows h hcond
    rw [hformula cfg rows h]
    simp only [implChurnFormula, specChurnFormula,
      calculate_value_trend_eq_spec rows hcond]
  exact ⟨hformula, hspec, hbounds, hsumm, hid,
    fun cfg sales => hsumm cfg _ (hid cfg sales)⟩

/-- Witness for the amended C4 at the spec scenario rows, which have 3
transactions so the score matches the full spec formula as well. -/
theorem C4_witness :
    calculate_churn_risk_score scenarioRows cfg0 = implChurnFormula scenarioRows cfg0 ∧
    calculate_churn_risk_score scenarioRows cfg0 = specChurnFormula scenarioRows cfg0 ∧
    0 ≤ calculate_churn_risk_score scenarioRows cfg0 ∧
    calculate_churn_risk_score scenarioRows cfg0 ≤ 1 :=
  ⟨C4_churn_risk_blend_and_bounds.1 cfg0 scenarioRows (by decide),
   C4_churn_risk_blend_and_bounds.2.1 cfg0 scenarioRows (by decide)
     (Or.inl (by decide)),
   (C4_churn_risk_blend_and_bounds.2.2.1 cfg0 scenarioRows).1,
   (C4_churn_risk_blend_and_bounds.2.2.1 cfg0 scenarioRows).2⟩

/-- C9: with a non-negative dormancy threshold, every dormant customer's
days_since_order is non-negative and equals the day difference between the
as-of date and the last order date; and every dormant customer's
salesperson appears as the key of exactly one representative summary. -/
theorem C9_invariants :
    ∀ (cfg : AnalyticsConfig) (sales : List MappedRow),
      0 ≤ cfg.dormant_days_threshold →
      (∀ dc ∈ identify_dormant_customers cfg sales,
        0 ≤ dc.days_since_order ∧
        dc.days_since_order = cfg.today_date.toDays - dc.last_order_date.toDays) ∧
      (∀ (dcs : List DormantCustomer), ∀ dc ∈ dcs,
        (generate_salesperson_summaries cfg dcs).countP
          (fun s => s.salesperson == dc.salesperson) = 1) := by
  intro cfg sales hthr
  constructor
  · intro dc hdc
    simp only [identify_dormant_customers] at hdc
    obtain ⟨name, hname, hsome⟩ := List.mem_filterMap.mp hdc
    split at hsome
    · cases hsome
    · have hdc2 := Option.some.inj hsome
      have hpred := (List.mem_filter.mp hname).2
      rw [isDormantLast] at hpred
      rcases hmax : maxDate? (postedDates
          (customerRows (periodSales cfg sales) name)) with _ | d
      · rw [hmax] at hpred
        cases hpred
      · rw [hmax] at hpred
        simp only [Bool.and_eq_true, decide_eq_true_eq] at hpred
        obtain ⟨h1, h2⟩ := hpred
        rw [← hdc2]
        constructor
        · show 0 ≤ cfg.today_date.toDays -
            ((maxDate? (postedDates (customerRows (periodSales cfg sales) name))).getD
              ⟨1970, 1, 1⟩).toDays
          rw [hmax]
          simp only [Option.getD_some]
          simp only [cutoffDays] at h2
          omega
        · rfl
  · intro dcs dc hdc
    rw [generate_salesperson_summaries]
    rw [List.Perm.countP_eq _ (List.perm_insertionSort _ _)]
    rw [List.countP_map]
    have hcomp : ((fun s : SalespersonSummary => s.salesperson == dc.salesperson) ∘ mkSummary)
        = (fun e : Option String × RepData => e.1 == dc.salesperson) := rfl
    rw [hcomp]
    have hsplit : (repData cfg dcs).countP
        (fun e : Option String × RepData => e.1 == dc.salesperson) =
        ((repData cfg dcs).map Prod.fst).countP
          (fun x : Option String => x == dc.salesperson) :=
      (List.countP_map (fun x : Option String => x == dc.salesperson)
        Prod.fst (repData cfg dcs)).symm
    rw [hsplit]
    exact countP_eq_one_of_nodup_mem dc.salesperson _
      (foldl_upsert_nodup cfg dcs [] (by simp))
      (mem_keys_foldl_of_mem cfg dcs [] dc hdc)

/-- Witness for C9 at the spec scenario. -/
theorem C9_witness :
    0 ≤ dcA.days_since_order ∧
    dcA.days_since_order = cfg0.today_date.toDays - dcA.last_order_date.toDays ∧
    (generate_salesperson_summaries cfg0 [dcA]).countP
      (fun s => s.salesperson == dcA.salesperson) = 1 := by
  have h := C9_invariants cfg0 scenarioRows (by decide)
  have hl : identify_dormant_customers cfg0 scenarioRows = [dcA] := rfl
  have hm : dcA ∈ identify_dormant_customers cfg0 scenarioRows := by
    rw [hl]
    exact List.mem_singleton_self _
  exact ⟨(h.1 dcA hm).1, (h.1 dcA hm).2, h.2 [dcA] dcA (List.mem_singleton_self _)⟩

/-- C1: a customer is classified dormant exactly when the maximum posted
date of their window-restricted transactions satisfies
analysis_start ≤ last_order_date < cutoff; in particular a customer whose
last order date falls exactly on the cutoff is never dormant, and a
customer with no transaction at or after the window start never appears in
the dormant list. -/
theorem C1_dormancy_boundary :
    ∀ (cfg : AnalyticsConfig) (sales : List MappedRow) (c : String),
      ((∃ dc ∈ identify_dormant_customers cfg sales, dc.customer = c) ↔
        (∃ d : Date,
          maxDate? (postedDates (customerRows (periodSales cfg sales) c)) = some d ∧
          analysisStart cfg ≤ d.toDays ∧ d.toDays < cutoffDays cfg)) ∧
      (∀ d : Date,
        maxDate? (postedDates (customerRows (periodSales cfg sales) c)) = some d →
        d.toDays = cutoffDays cfg →
        ¬ ∃ dc ∈ identify_dormant_customers cfg sales, dc.customer = c) ∧
      (customerRows (periodSales cfg sales) c = [] →
        ¬ ∃ dc ∈ identify_dormant_customers cfg sales, dc.customer = c) := by
  intro cfg sales c
  have main : (∃ dc ∈ identify_dormant_customers cfg sales, dc.customer = c) ↔
      (∃ d : Date,
        maxDate? (postedDates (customerRows (periodSales cfg sales) c)) = some d ∧
        analysisStart cfg ≤ d.toDays ∧ d.toDays < cutoffDays cfg) := by
    constructor
    · rintro ⟨dc, hdc, hcust⟩
      simp only [identify_dormant_customers] at hdc
      obtain ⟨name, hname, hsome⟩ := List.mem_filterMap.mp hdc
      split at hsome
      · cases hsome
      · have hdc2 := Option.some.inj hsome
        have hnc : name = c := by
          rw [← hcust, ← hdc2]
          rfl
        subst hnc
        have hpred := (List.mem_filter.mp hname).2
        rw [isDormantLast] at hpred
        rcases hmax : maxDate? (postedDates
            (customerRows (periodSales cfg sales) name)) with _ | d
        · rw [hmax] at hpred
          cases hpred
        · rw [hmax] at hpred
          simp only [Bool.and_eq_true, decide_eq_true_eq] at hpred
          exact ⟨d, rfl, hpred⟩
    · rintro ⟨d, hmax, h1, h2⟩
      have hrows : customerRows (periodSales cfg sales) c ≠ [] := by
        intro h0
        rw [h0] at hmax
        cases hmax
      obtain ⟨r, hr⟩ := List.exists_mem_of_ne_nil _ hrows
      obtain ⟨hrperiod, hrcust⟩ := (mem_customerRows _ _ _).mp hr
      have hcnames : c ∈ collectKeys strLt (fun r => r.customer)
          (periodSales cfg sales) :=
        (mem_collectKeys _ _ _ _).mpr ⟨r, hrperiod, hrcust⟩
      have hpred : isDormantLast cfg (customerRows (periodSales cfg sales) c) = true := by
        rw [isDormantLast, hmax]
        simp [h1, h2]
      refine ⟨mkDormantCustomer cfg c (customerRows (periodSales cfg sales) c), ?_, rfl⟩
      simp only [identify_dormant_customers]
      apply List.mem_filterMap.mpr
      refine ⟨c, List.mem_filter.mpr ⟨hcnames, hpred⟩, ?_⟩
      rw [if_neg hrows]
  refine ⟨main, ?_, ?_⟩
  · intro d hmax heq hex
    obtain ⟨d2, hmax2, _, hlt⟩ := main.mp hex
    rw [hmax] at hmax2
    have : d = d2 := Option.some.inj hmax2
    rw [← this] at hlt
    omega
  · intro h0 hex
    obtain ⟨d, hmax, _⟩ := main.mp hex
    rw [h0] at hmax
    cases hmax

/-- Witness for C1: in the spec scenario, customer A with last order
2025-03-15 is dormant for the 2025-06-01 as-of date with a 45-day
threshold and 6-month window. -/
theorem C1_witness :
    ∃ dc ∈ identify_dormant_customers cfg0 scenarioRows, dc.customer = "A" :=
  ((C1_dormancy_boundary cfg0 scenarioRows "A").1).mpr
    ⟨⟨2025, 3, 15⟩, by decide, by decide, by decide⟩
